import Mathlib

/-!
Verification of the `qpcr` file-layout parsing subsystem.

The repository's parsing subsystem (qpcr.Readers / qpcr.Parsers) is specified
in the accompanying design document; its processing classes are not part of the
supplied sources (only notebooks, README/changelog prose and documentation
stubs are).  The definitions below are therefore a shallow embedding modelled
from the specification's words, as faithfully as the prose allows.  Each
definition's doc comment records which part of the specification it models.
-/

namespace Qpcr

/-- Modelled from the spec: a Cell (§3) holds a raw value — text, number, or
empty — at a grid position; positions are carried by the containing grid. -/
inductive Cell where
  | empty : Cell
  | text : String → Cell
  | num : Int → Cell
deriving DecidableEq, Repr

/-- A row of cells of one worksheet. -/
abbrev Row := List Cell

/-- Modelled from the spec: TableGrid (§3), an ordered 2-D collection of Cells
for one sheet; rectangular bounding box with ragged rows padded by empty
cells (out-of-row reads below yield `Cell.empty`). -/
structure TableGrid where
  rows : List Row
deriving DecidableEq, Repr

/-- Modelled from the spec: `cell(row, col)` (§4.1) returns an empty-value Cell
for in-bound-but-empty addresses. -/
def cellAt (g : TableGrid) (r c : Nat) : Cell :=
  (g.rows.getD r []).getD c Cell.empty

/-- Sheet width: the rectangular bound of the grid (§3 invariant: rows are
padded to a common width, so the first row's length is the bound). -/
def TableGrid.width (g : TableGrid) : Nat :=
  (g.rows.headD []).length

def Cell.isEmptyCell : Cell → Bool
  | .empty => true
  | _ => false

/-- A blank separator row: all cells empty (§4.4). -/
def isBlankRow (r : Row) : Bool := r.all Cell.isEmptyCell

/-- Text content of a cell, used for identifiers (§4.4): numbers are rendered,
empty cells give the empty string. -/
def textOf : Cell → String
  | .empty => ""
  | .text s => s
  | .num n => toString n

/-- Modelled from the spec: a Decorator (§3) is a recognized annotation found
in a cell: a namespace+key (stored here as the full key string, e.g.
"qpcr:assay") and its grid position. -/
structure Decorator where
  key : String
  row : Nat
  col : Nat
deriving DecidableEq, Repr

/-- Modelled from the spec: a HeaderMatch (§3): the row index of a recognized
dataset header (row-major orientation) plus the captured dataset name. -/
structure HeaderMatch where
  index : Nat
  name : String
deriving DecidableEq, Repr

/-- Modelled from the spec: a Dataset (§3): identifier, the position of the
header it was extracted from, and the ordered (replicate-label, Ct-value)
pairs.  Ct values are kept as raw cells: the extractor "does not filter data,
only locates it" (§4.4). -/
structure Dataset where
  id : String
  headerPos : Nat
  pairs : List (String × Cell)
deriving DecidableEq, Repr

/-- Whether the first list is an initial run of the second. -/
def charsLead : List Char → List Char → Bool
  | [], _ => true
  | _ :: _, [] => false
  | a :: as, b :: bs => a == b && charsLead as bs

/-- Modelled from the spec: Decorator Scanner token recognition (§4.2, §6).
A decorator token has the literal shape "@qpcr" (bare column-header form,
recorded as key "qpcr") or "@qpcr:key" (recorded as key "qpcr:key"); any
other cell text is not a decorator and yields `none` (unrecognized tokens
are silently ignored). -/
def decoratorKeyOf (s : String) : Option String :=
  match s.toList with
  | '@' :: rest =>
      if charsLead ("qpcr:".toList) rest then some (String.mk rest)
      else if rest == "qpcr".toList then some "qpcr"
      else none
  | _ => none

/-- Decorators recognized in one row (positions recorded left-to-right). -/
def scanRow (ri : Nat) (r : Row) : List Decorator :=
  r.enum.filterMap (fun p =>
    match p.2 with
    | Cell.text s => (decoratorKeyOf s).map (fun k => ⟨k, ri, p.1⟩)
    | _ => none)

/-- Modelled from the spec: Decorator Scanner `scan(grid)` (§4.2): a pure read
of the grid collecting every recognized decorator token with its position,
row-major. -/
def scan (g : TableGrid) : List Decorator :=
  g.rows.enum.flatMap (fun p => scanRow p.1 p.2)

/-- Modelled from the spec: decorator-key selection.  The explicit selection
key "qpcr:all" selects every role-decorated dataset (both "qpcr:assay" and
"qpcr:normaliser" anchors); any other selection key selects exactly itself. -/
def matchesKey (sel key : String) : Bool :=
  (sel == "qpcr:all" && (key == "qpcr:assay" || key == "qpcr:normaliser"))
    || sel == key

/-- Modelled from the spec: Dataset Role Classifier (§4.7): a dataset is a
normalizer iff a decorator with key "normaliser" was found anchored at the
cell immediately above that dataset's header. -/
def anchoredNormaliser (decs : List Decorator) (d : Dataset) : Bool :=
  decs.any (fun dec => dec.key == "qpcr:normaliser" && dec.row + 1 == d.headerPos)

/-- Modelled from the spec: `classify(datasets, decorators)` (§4.7): split the
extracted datasets into (assays-of-interest, normalizers); all datasets that
are not normaliser-anchored become assays-of-interest (default-all-assays
policy). -/
def classify (ds : List Dataset) (decs : List Decorator) :
    List Dataset × List Dataset :=
  (ds.filter (fun d => !(anchoredNormaliser decs d)),
   ds.filter (fun d => anchoredNormaliser decs d))

end Qpcr

namespace Qpcr

/-- Claim C2: for every input sequence of datasets and every decorator set,
`classify` returns a pair of lists such that each input dataset appears in
exactly one of the two lists — never in both and never in neither — and the
concatenation of the two output lists is a permutation covering all inputs. -/
theorem classify_partitions (ds : List Dataset) (decs : List Decorator) :
    ((classify ds decs).1 ++ (classify ds decs).2).Perm ds ∧
    (∀ d, d ∈ ds ↔ (d ∈ (classify ds decs).1 ∨ d ∈ (classify ds decs).2)) ∧
    (∀ d, ¬(d ∈ (classify ds decs).1 ∧ d ∈ (classify ds decs).2)) := by
  refine ⟨?_, ?_, ?_⟩
  · have h := List.filter_append_perm (fun d => !(anchoredNormaliser decs d)) ds
    simpa [classify, Bool.not_not] using h
  · intro d
    constructor
    · intro hd
      by_cases h : anchoredNormaliser decs d = true
      · exact Or.inr (List.mem_filter.mpr ⟨hd, h⟩)
      · exact Or.inl (List.mem_filter.mpr ⟨hd, by simp [h]⟩)
    · rintro (h | h) <;> exact (List.mem_filter.mp h).1
  · intro d ⟨h1, h2⟩
    have e1 := (List.mem_filter.mp h1).2
    have e2 := (List.mem_filter.mp h2).2
    simp [e2] at e1

/-- Claim C3: classifying any dataset set against an empty decorator set yields
(all datasets as assays-of-interest, no normalizers); classifying the same
datasets when a "normaliser"-keyed decorator is anchored at every dataset's
header yields (no assays, all datasets as normalizers). -/
theorem classify_normaliser_roundtrip (ds : List Dataset) (decs : List Decorator)
    (hall : ∀ d ∈ ds, ∃ dec ∈ decs,
      dec.key = "qpcr:normaliser" ∧ dec.row + 1 = d.headerPos) :
    classify ds [] = (ds, []) ∧ classify ds decs = ([], ds) := by
  constructor
  · simp [classify, anchoredNormaliser]
  · have hanch : ∀ d ∈ ds, anchoredNormaliser decs d = true := by
      intro d hd
      obtain ⟨dec, hdec, hkey, hrow⟩ := hall d hd
      refine List.any_eq_true.mpr ⟨dec, hdec, ?_⟩
      simp [hkey, hrow]
    have h1 : List.filter (fun d => !anchoredNormaliser decs d) ds = [] :=
      List.filter_eq_nil_iff.mpr (by intro d hd; simp [hanch d hd])
    have h2 : List.filter (fun d => anchoredNormaliser decs d) ds = ds :=
      List.filter_eq_self.mpr hanch
    simp only [classify]
    rw [h1, h2]

/-- Concrete datasets used by the round-trip witness. -/
def dsC3 : List Dataset :=
  [⟨"28S", 1, [("g1", Cell.num 20)]⟩, ⟨"HNRNPL", 4, [("g1", Cell.num 27)]⟩]

/-- Concrete decorators used by the round-trip witness: one "qpcr:normaliser"
anchor immediately above each header of `dsC3`. -/
def decsC3 : List Decorator :=
  [⟨"qpcr:normaliser", 0, 0⟩, ⟨"qpcr:normaliser", 3, 0⟩]

theorem classify_normaliser_roundtrip_witness :
    classify dsC3 [] = (dsC3, []) ∧ classify dsC3 decsC3 = ([], dsC3) :=
  classify_normaliser_roundtrip dsC3 decsC3 (by decide)

end Qpcr

namespace Qpcr

/-- Modelled from the spec: the (identifier, Ct) pair a data row contributes
(§4.4): the identifier text from `id_col` and the raw Ct cell from `ct_col`. -/
def pairOfRow (idCol ctCol : Nat) (r : Row) : String × Cell :=
  (textOf (r.getD idCol Cell.empty), r.getD ctCol Cell.empty)

/-- Modelled from the spec: the contiguous block of replicate rows following a
header (§4.4): rows from `start` (the row after the header) up to `stop` (the
next header's position or the grid boundary), cut short at the first blank
separator row. -/
def blockRows (g : TableGrid) (start stop : Nat) : List Row :=
  (((g.rows.drop start).take (stop - start)).takeWhile (fun r => !(isBlankRow r)))

/-- One dataset extracted for one HeaderMatch (§4.4). -/
def extractOne (g : TableGrid) (idCol ctCol : Nat) (h : HeaderMatch) (stop : Nat) :
    Dataset :=
  ⟨h.name, h.index, (blockRows g (h.index + 1) stop).map (pairOfRow idCol ctCol)⟩

/-- Each header paired with the position at which its block must stop: the next
header's index, or the given boundary for the last header (§4.4). -/
def stopsFor : List HeaderMatch → Nat → List (HeaderMatch × Nat)
  | [], _ => []
  | h :: rest, bound =>
      (h, ((rest.head?).map HeaderMatch.index).getD bound) :: stopsFor rest bound

/-- Modelled from the spec: Single/Irregular Table Extractor `extract` (§4.4):
for each HeaderMatch, collect contiguous (identifier, Ct) rows after the header
until a blank separator row, the next HeaderMatch's position, or the grid
boundary — whichever comes first. -/
def extract (g : TableGrid) (idCol ctCol : Nat) (headers : List HeaderMatch) :
    List Dataset :=
  (stopsFor headers g.rows.length).map (fun p => extractOne g idCol ctCol p.1 p.2)

theorem takeWhile_append_of_all {α} (p : α → Bool) (l₁ l₂ : List α)
    (h : ∀ a ∈ l₁, p a = true) :
    (l₁ ++ l₂).takeWhile p = l₁ ++ l₂.takeWhile p := by
  induction l₁ with
  | nil => simp
  | cons a as ih =>
      have ha : p a = true := h a (List.mem_cons_self a as)
      simp [List.takeWhile_cons, ha]
      exact ih (fun x hx => h x (List.mem_cons_of_mem a hx))

/-- Claim C4: for a single-table grid holding exactly one header followed by k
contiguous (non-blank) replicate rows, and then either the grid boundary or a
blank separator row, `extract` returns exactly one Dataset whose pairs are the
k (identifier, Ct) pairs of those rows in grid order. -/
theorem extract_single_block (pre dataRows rest : List Row) (hdr : Row)
    (name : String) (idCol ctCol : Nat)
    (hk : 1 ≤ dataRows.length)
    (hdata : ∀ r ∈ dataRows, isBlankRow r = false)
    (hstop : rest = [] ∨ ∃ r rs, rest = r :: rs ∧ isBlankRow r = true) :
    extract ⟨pre ++ hdr :: (dataRows ++ rest)⟩ idCol ctCol [⟨pre.length, name⟩]
      = [⟨name, pre.length, dataRows.map (pairOfRow idCol ctCol)⟩] ∧
    (dataRows.map (pairOfRow idCol ctCol)).length = dataRows.length := by
  refine ⟨?_, by simp⟩
  have hblock :
      blockRows ⟨pre ++ hdr :: (dataRows ++ rest)⟩ (pre.length + 1)
        (pre ++ hdr :: (dataRows ++ rest)).length = dataRows := by
    unfold blockRows
    have hsplit : pre ++ hdr :: (dataRows ++ rest)
        = (pre ++ [hdr]) ++ (dataRows ++ rest) := by simp
    have hlen1 : pre.length + 1 = (pre ++ [hdr]).length := by simp
    have hdrop :
        (pre ++ hdr :: (dataRows ++ rest)).drop (pre.length + 1)
          = dataRows ++ rest := by
      rw [hsplit, hlen1, List.drop_left]
    have hlen2 :
        (pre ++ hdr :: (dataRows ++ rest)).length - (pre.length + 1)
          = (dataRows ++ rest).length := by
      simp; omega
    rw [show (TableGrid.mk (pre ++ hdr :: (dataRows ++ rest))).rows
          = pre ++ hdr :: (dataRows ++ rest) from rfl]
    rw [hdrop, hlen2, List.take_length]
    have hall : ∀ r ∈ dataRows, (!(isBlankRow r)) = true := by
      intro r hr; simp [hdata r hr]
    rw [takeWhile_append_of_all _ _ _ hall]
    rcases hstop with h | ⟨r, rs, hrest, hblank⟩
    · simp [h]
    · simp [hrest, List.takeWhile_cons, hblank]
  simp only [extract, stopsFor, List.head?, Option.map, Option.getD, List.map]
  unfold extractOne
  rw [show (TableGrid.mk (pre ++ hdr :: (dataRows ++ rest))).rows.length
        = (pre ++ hdr :: (dataRows ++ rest)).length from rfl]
  rw [hblock]

/-- Concrete rows for the single-table extraction witness. -/
def hdrC4 : Row := [Cell.text "Quantitative analysis (28S)"]

def rowC4a : Row := [Cell.text "s1", Cell.num 21]

def rowC4b : Row := [Cell.text "s2", Cell.num 22]

theorem extract_single_block_witness :
    extract ⟨[hdrC4, rowC4a, rowC4b]⟩ 0 1 [⟨0, "28S"⟩]
      = [⟨"28S", 0, [("s1", Cell.num 21), ("s2", Cell.num 22)]⟩] ∧
    ([rowC4a, rowC4b].map (pairOfRow 0 1)).length = 2 :=
  extract_single_block [] [rowC4a, rowC4b] [] hdrC4 "28S" 0 1
    (by decide) (by decide) (Or.inl rfl)

end Qpcr

namespace Qpcr

/-- Modelled from the spec: Header Locator, pattern mode (§4.3(b)): the assay
pattern (a regular expression with a named capture group for the dataset
identifier, modelled as a function from cell text to an optional captured
identifier) is applied cell-by-cell down the declared header column; each
match yields a HeaderMatch at that row. -/
def locateByPattern (g : TableGrid) (col : Nat) (pat : String → Option String) :
    List HeaderMatch :=
  g.rows.enum.filterMap (fun p =>
    match p.2.getD col Cell.empty with
    | Cell.text s => (pat s).map (fun nm => (⟨p.1, nm⟩ : HeaderMatch))
    | _ => none)

/-- The captured dataset name at a decorator-anchored header: the raw text of
the header cell (§4.3(c)). -/
def headerNameAt (g : TableGrid) (r c : Nat) : String := textOf (cellAt g r c)

/-- Modelled from the spec: Header Locator, decorator mode (§4.3(c)): the
selected decorator positions are used directly as header anchors — one header
in the cell immediately below each selected decorator. -/
def locateByDecorator (g : TableGrid) (col : Nat) (decs : List Decorator)
    (sel : String) : List HeaderMatch :=
  (decs.filter (fun d => matchesKey sel d.key)).map
    (fun d => ⟨d.row + 1, headerNameAt g (d.row + 1) col⟩)

/-- Modelled from the spec: error taxonomy (§7).  `NoDatasetError` and
`InvalidDecoratorOptionError` model outcomes the specification leaves open: a
single-dataset read that located no dataset (§4.3 leaves "no dataset found" to
the caller), and a boolean decorator flag handed to a Parser, which accepts
only explicit keys. -/
inductive QpcrError where
  | UnreadableSourceError
  | InconsistentLayoutError
  | AssayNotFoundError
  | MultipleDatasetsFoundError
  | ReplicateCountMismatchError
  | NoDatasetError
  | InvalidDecoratorOptionError
deriving DecidableEq, Repr

/-- Modelled from the spec: the `decorator` read option (§4.8): absent, the
boolean form, or an explicit decorator key. -/
inductive DecoratorOpt where
  | off
  | enabled
  | key (s : String)
deriving DecidableEq, Repr

/-- Modelled from the spec: the Reader Façade's recognized option surface (§6),
restricted to the options the parsing claims exercise. -/
structure ReadOptions where
  col : Nat := 0
  idCol : Nat := 0
  ctCol : Nat := 1
  pattern : String → Option String := fun _ => none
  multiAssay : Bool := false
  decorator : DecoratorOpt := DecoratorOpt.off

/-- The uniform result shape of the Reader Façade (§4.8): one Dataset in
single-dataset mode, the role-partitioned pair in multi-dataset mode. -/
inductive ReadResult where
  | single (d : Dataset)
  | multiple (assays normalisers : List Dataset)
deriving DecidableEq, Repr

/-- Modelled from the spec: header discovery as switched by the `decorator`
option (§4.8): positional/pattern-based normally, decorator-anchor-based when
the option is given.  Per the tutorial note, the boolean form stands for the
key "qpcr:all" and only works for multi-assay reads via a Reader: outside
multi-assay mode it activates no anchor-based discovery and locates nothing. -/
def chosenHeaders (g : TableGrid) (o : ReadOptions) : List HeaderMatch :=
  match o.decorator with
  | .off => locateByPattern g o.col o.pattern
  | .enabled =>
      if o.multiAssay then locateByDecorator g o.col (scan g) "qpcr:all" else []
  | .key s => locateByDecorator g o.col (scan g) s

/-- The datasets the chosen extractor yields for one read call (§4.8). -/
def chosenDatasets (g : TableGrid) (o : ReadOptions) : List Dataset :=
  extract g o.idCol o.ctCol (chosenHeaders g o)

/-- Modelled from the spec: Reader Façade `read` (§4.8): single-dataset mode
returns one Dataset and fails with `MultipleDatasetsFoundError` if the chosen
extractor yields more than one; multi-dataset mode always returns the
role-partitioned pair.  Per the tutorial note, the boolean decorator form is
only accepted for multi-assay reads: a single-dataset read given
`decorator = True` is rejected with `InvalidDecoratorOptionError` (an
explicit decorator key must be used instead). -/
def read (g : TableGrid) (o : ReadOptions) : Except QpcrError ReadResult :=
  if o.multiAssay then
    Except.ok (ReadResult.multiple
      (classify (chosenDatasets g o) (scan g)).1
      (classify (chosenDatasets g o) (scan g)).2)
  else if o.decorator = DecoratorOpt.enabled then
    Except.error QpcrError.InvalidDecoratorOptionError
  else
    match chosenDatasets g o with
    | [] => Except.error QpcrError.NoDatasetError
    | [d] => Except.ok (ReadResult.single d)
    | _ :: _ :: _ => Except.error QpcrError.MultipleDatasetsFoundError

theorem mem_stopsFor {pr : HeaderMatch × Nat} {hs : List HeaderMatch} {b : Nat}
    (h : pr ∈ stopsFor hs b) : pr.1 ∈ hs := by
  induction hs with
  | nil => simp [stopsFor] at h
  | cons a as ih =>
      simp only [stopsFor, List.mem_cons] at h
      rcases h with h | h
      · subst h; exact List.mem_cons_self _ _
      · exact List.mem_cons_of_mem _ (ih h)

theorem mem_extract {d : Dataset} {g : TableGrid} {idCol ctCol : Nat}
    {hs : List HeaderMatch} (h : d ∈ extract g idCol ctCol hs) :
    ∃ hm ∈ hs, d.headerPos = hm.index := by
  simp only [extract, List.mem_map] at h
  obtain ⟨pr, hpr, hd⟩ := h
  exact ⟨pr.1, mem_stopsFor hpr, by rw [← hd]; rfl⟩

theorem mem_locateByDecorator {hm : HeaderMatch} {g : TableGrid} {col : Nat}
    {decs : List Decorator} {sel : String}
    (h : hm ∈ locateByDecorator g col decs sel) :
    ∃ dec ∈ decs, matchesKey sel dec.key = true ∧ hm.index = dec.row + 1 := by
  simp only [locateByDecorator, List.mem_map, List.mem_filter] at h
  obtain ⟨dec, ⟨hdec, hkey⟩, hd⟩ := h
  exact ⟨dec, hdec, hkey, by rw [← hd]⟩

theorem mem_of_mem_classify {d : Dataset} {l : List Dataset}
    {decs : List Decorator}
    (h : d ∈ (classify l decs).1 ++ (classify l decs).2) : d ∈ l := by
  rcases List.mem_append.mp h with h | h <;>
    exact (List.mem_filter.mp h).1

/-- Claim C1: when `read` is called with the decorator option enabled (and
`multi_assay`), it succeeds without error, every dataset in the result is
anchored at a selected decorator, and a dataset whose header position `p` has
no selected decorator anchored above it (an undecorated dataset) is silently
excluded from the result. -/
theorem read_decorator_mode_excludes_undecorated (g : TableGrid)
    (o : ReadOptions) (p : Nat)
    (hdec : o.decorator = DecoratorOpt.enabled) (hmulti : o.multiAssay = true)
    (hund : ∀ dec ∈ scan g, matchesKey "qpcr:all" dec.key = true →
      dec.row + 1 ≠ p) :
    ∃ a n, read g o = Except.ok (ReadResult.multiple a n) ∧
      (∀ ds ∈ a ++ n, ∃ dec ∈ scan g,
        matchesKey "qpcr:all" dec.key = true ∧ ds.headerPos = dec.row + 1) ∧
      (∀ ds ∈ a ++ n, ds.headerPos ≠ p) := by
  refine ⟨(classify (chosenDatasets g o) (scan g)).1,
          (classify (chosenDatasets g o) (scan g)).2,
          by simp [read, hmulti], ?_, ?_⟩
  · intro ds hds
    have hmem : ds ∈ chosenDatasets g o := mem_of_mem_classify hds
    have hex : ds ∈ extract g o.idCol o.ctCol
        (locateByDecorator g o.col (scan g) "qpcr:all") := by
      simpa [chosenDatasets, chosenHeaders, hdec, hmulti] using hmem
    obtain ⟨hm, hhm, hpos⟩ := mem_extract hex
    obtain ⟨dec, hdecs, hkey, hidx⟩ := mem_locateByDecorator hhm
    exact ⟨dec, hdecs, hkey, by rw [hpos, hidx]⟩
  · intro ds hds
    have hmem : ds ∈ chosenDatasets g o := mem_of_mem_classify hds
    have hex : ds ∈ extract g o.idCol o.ctCol
        (locateByDecorator g o.col (scan g) "qpcr:all") := by
      simpa [chosenDatasets, chosenHeaders, hdec, hmulti] using hmem
    obtain ⟨hm, hhm, hpos⟩ := mem_extract hex
    obtain ⟨dec, hdecs, hkey, hidx⟩ := mem_locateByDecorator hhm
    rw [hpos, hidx]
    exact hund dec hdecs hkey

/-- Concrete grid for the decorator-mode witness: a decorated dataset (header
at row 1, anchored by the "@qpcr:assay" decorator at row 0) and an undecorated
dataset (header at row 4, no decorator above it). -/
def gC1 : TableGrid :=
  ⟨[[Cell.text "@qpcr:assay"],
    [Cell.text "H1"],
    [Cell.text "s1", Cell.num 21],
    [],
    [Cell.text "H2"],
    [Cell.text "s2", Cell.num 22]]⟩

def oC1 : ReadOptions :=
  { multiAssay := true, decorator := DecoratorOpt.enabled }

theorem read_decorator_mode_excludes_undecorated_witness :
    ∃ a n, read gC1 oC1 = Except.ok (ReadResult.multiple a n) ∧
      (∀ ds ∈ a ++ n, ∃ dec ∈ scan gC1,
        matchesKey "qpcr:all" dec.key = true ∧ ds.headerPos = dec.row + 1) ∧
      (∀ ds ∈ a ++ n, ds.headerPos ≠ 4) :=
  read_decorator_mode_excludes_undecorated gC1 oC1 4 rfl rfl (by decide)

/-- Claim C6: with `multi_assay` not requested, `read` returns a single
Dataset when the chosen extractor yields one and fails with
`MultipleDatasetsFoundError` exactly when it yields more than one; with
`multi_assay = True` it always returns the role-partitioned pair. -/
theorem read_mode_errors (g : TableGrid) (o : ReadOptions) :
    (o.multiAssay = false →
      ((read g o = Except.error QpcrError.MultipleDatasetsFoundError) ↔
        1 < (chosenDatasets g o).length) ∧
      (∀ d, chosenDatasets g o = [d] →
        read g o = Except.ok (ReadResult.single d))) ∧
    (o.multiAssay = true →
      ∃ a n, read g o = Except.ok (ReadResult.multiple a n)) := by
  constructor
  · intro hm
    by_cases hd : o.decorator = DecoratorOpt.enabled
    · have hds : chosenDatasets g o = [] := by
        simp [chosenDatasets, chosenHeaders, hd, hm, extract, stopsFor]
      have hr : read g o = Except.error QpcrError.InvalidDecoratorOptionError := by
        simp [read, hm, hd]
      constructor
      · rw [hr, hds]
        simp
      · intro d hone
        rw [hds] at hone
        simp at hone
    · constructor
      · rcases hds : chosenDatasets g o with _ | ⟨d, _ | ⟨d', tl⟩⟩
        · simp [read, hm, hd, hds]
        · simp [read, hm, hd, hds]
        · have h1 : read g o
              = Except.error QpcrError.MultipleDatasetsFoundError := by
            simp [read, hm, hd, hds]
          rw [h1]
          constructor
          · intro _; simp
          · intro _; rfl
      · intro d hone
        simp [read, hm, hd, hone]
  · intro hm
    exact ⟨(classify (chosenDatasets g o) (scan g)).1,
           (classify (chosenDatasets g o) (scan g)).2, by simp [read, hm]⟩

/-- Concrete assay pattern for the read-mode witness. -/
def patC6 : String → Option String := fun s =>
  if s = "H1" then some "A" else if s = "H2" then some "B" else none

/-- Concrete two-dataset grid for the read-mode witness. -/
def gC6 : TableGrid :=
  ⟨[[Cell.text "H1"],
    [Cell.text "s1", Cell.num 1],
    [Cell.text "H2"],
    [Cell.text "s2", Cell.num 2]]⟩

def oC6 : ReadOptions := { pattern := patC6 }

theorem read_mode_errors_witness :
    read gC6 oC6 = Except.error QpcrError.MultipleDatasetsFoundError ∧
    (∃ a n, read gC6 { oC6 with multiAssay := true }
      = Except.ok (ReadResult.multiple a n)) :=
  ⟨((read_mode_errors gC6 oC6).1 rfl).1.mpr (by decide),
   (read_mode_errors gC6 { oC6 with multiAssay := true }).2 rfl⟩

/-- Modelled from the spec: §5 — the Reader Façade holds no state that
survives one read call ("each call constructs and discards its own
TableGrid/Decorator set").  The DataReader object is modelled with the result
storage it replaces wholesale on every call. -/
structure DataReader where
  stored : Option ReadResult

/-- One façade invocation: compute the result from the source and options
alone, and replace the reader's stored state. -/
def DataReader.callRead (_r : DataReader) (g : TableGrid) (o : ReadOptions) :
    Except QpcrError ReadResult × DataReader :=
  (read g o, ⟨(read g o).toOption⟩)

/-- Claim C7: two successive `read` invocations on the same immutable source
with identical options return structurally equal results (the second call is
made from the state the first call left behind); moreover the result does not
depend on the reader's incoming state at all. -/
theorem read_idempotent_stateless (r r' : DataReader) (g : TableGrid)
    (o : ReadOptions) :
    ((r.callRead g o).2.callRead g o).1 = (r.callRead g o).1 ∧
    (r.callRead g o).1 = (r'.callRead g o).1 :=
  ⟨rfl, rfl⟩

/-- Modelled from the spec: the module-level convenience entry
`qpcr.read_multi_assay` (documentation index): reads a multi-assay file and
returns the (assays, normalisers) pair directly, running the multi-assay
pipeline — scan decorators, locate headers, extract, classify. -/
def read_multi_assay (g : TableGrid) (o : ReadOptions) :
    Except QpcrError ReadResult :=
  let decs := scan g
  let headers :=
    match o.decorator with
    | .off => locateByPattern g o.col o.pattern
    | .enabled => locateByDecorator g o.col decs "qpcr:all"
    | .key s => locateByDecorator g o.col decs s
  let ds := extract g o.idCol o.ctCol headers
  Except.ok (ReadResult.multiple
    (ds.filter (fun d => !(anchoredNormaliser decs d)))
    (ds.filter (fun d => anchoredNormaliser decs d)))

/-- Claim C9: `read_multi_assay(source, options)` returns the same result as
`read(source, options)` with `multi_assay = True` added — the two entry points
are extensionally equal. -/
theorem read_multi_assay_eq_read (g : TableGrid) (o : ReadOptions) :
    read_multi_assay g o = read g { o with multiAssay := true } := rfl

/-- Modelled from the spec / tutorial note: `qpcr.Parsers` pipe.  Parsers
accept only explicit decorator keys; the boolean decorator form is a
Reader-level convenience that "will not work for Parsers". -/
def parserPipe (g : TableGrid) (col idCol ctCol : Nat)
    (pat : String → Option String) (decOpt : DecoratorOpt) :
    Except QpcrError (List Dataset) :=
  match decOpt with
  | .off => Except.ok (extract g idCol ctCol (locateByPattern g col pat))
  | .enabled => Except.error QpcrError.InvalidDecoratorOptionError
  | .key s =>
      Except.ok (extract g idCol ctCol (locateByDecorator g col (scan g) s))

/-- Claim C10: for multi-assay reads through a Reader, `decorator = True` and
`decorator = "qpcr:all"` produce the same result; the boolean form is only
accepted for multi-assay reads via a Reader — a single-assay Reader read
given the boolean form is rejected — and it does not work when handed to a
Parser directly, whereas an explicit key form is accepted by the Reader (in
either mode) and by the Parser. -/
theorem decorator_bool_eq_explicit_all (g : TableGrid) (o : ReadOptions) :
    read g { o with multiAssay := true, decorator := DecoratorOpt.enabled }
      = read g { o with multiAssay := true,
                        decorator := DecoratorOpt.key "qpcr:all" } ∧
    (∀ col idCol ctCol pat,
      parserPipe g col idCol ctCol pat DecoratorOpt.enabled
        = Except.error QpcrError.InvalidDecoratorOptionError) ∧
    (∀ col idCol ctCol pat s, ∃ ds,
      parserPipe g col idCol ctCol pat (DecoratorOpt.key s) = Except.ok ds) ∧
    (∃ a n, read g { o with multiAssay := true,
                            decorator := DecoratorOpt.key "qpcr:all" }
        = Except.ok (ReadResult.multiple a n)) ∧
    read g { o with multiAssay := false, decorator := DecoratorOpt.enabled }
      = Except.error QpcrError.InvalidDecoratorOptionError ∧
    (∀ s, read g { o with multiAssay := false, decorator := DecoratorOpt.key s }
        ≠ Except.error QpcrError.InvalidDecoratorOptionError) := by
  refine ⟨rfl, fun _ _ _ _ => rfl, fun _ _ _ _ _ => ⟨_, rfl⟩, ⟨_, _, rfl⟩,
    rfl, ?_⟩
  intro s
  rcases hds : chosenDatasets g
      { o with multiAssay := false, decorator := DecoratorOpt.key s }
    with _ | ⟨d, _ | ⟨d', tl⟩⟩ <;>
    simp [read, hds]

end Qpcr

namespace Qpcr

/-- Modelled from the spec: the positions of the "@qpcr:group" decorators in
the decorator row (the first sheet row), scanned left-to-right (§4.6): each
position marks the first replicate column of one group. -/
def groupPositions (g : TableGrid) : List Nat :=
  (g.rows.headD []).enum.filterMap (fun p =>
    match p.2 with
    | Cell.text s =>
        if decoratorKeyOf s == some "qpcr:group" then some p.1 else none
    | _ => none)

/-- Modelled from the spec: horizontal group-span validation (§4.6): each
decorator marks the start of a group spanning exactly `rep` columns; the
check fails when fewer than `rep` columns remain before the next decorator or
the sheet edge. -/
def spansOk (rep width : Nat) : List Nat → Bool
  | [] => true
  | [p] => decide (p + rep ≤ width)
  | p :: q :: rest => decide (p + rep ≤ q) && spansOk rep width (q :: rest)

/-- Group name for group index j (§4.6): the caller-supplied `names` sequence
matched positionally, else sequential numbering from 0. -/
def nameFor (names : List String) (j : Nat) : String := names.getD j (toString j)

/-- Modelled from the spec: one assay row of a horizontal big table turned
into a Dataset (§4.6): the assay identifier from `id_col`, and for each
decorated group the `rep` cells starting at the group's first column,
labelled with the group's name. -/
def rowDataset (idCol rep : Nat) (ps : List Nat) (names : List String)
    (rowIdx : Nat) (r : Row) : Dataset :=
  ⟨textOf (r.getD idCol Cell.empty), rowIdx,
   ps.enum.flatMap (fun pj =>
     ((r.drop pj.2).take rep).map (fun c => (nameFor names pj.1, c)))⟩

/-- The per-row datasets of a horizontal big table, before label keying: one
per data row (the rows after the decorator row and the column-header row). -/
def horizontalDatasets (g : TableGrid) (idCol rep : Nat)
    (names : List String) : List Dataset :=
  (g.rows.drop 2).enum.map (fun p =>
    rowDataset idCol rep (groupPositions g) names (p.1 + 2) p.2)

/-- Worker for `keyByLabel`, carrying the labels already seen. -/
def keyByLabelGo (seen : List String) : List Dataset → List Dataset
  | [] => []
  | d :: rest =>
      if d.id ∈ seen then keyByLabelGo seen rest
      else d :: keyByLabelGo (d.id :: seen) rest

/-- Modelled from the spec / tutorial note: the horizontal reader keys the
parsed datasets by their assay label ("only supports *uniquely* labelled
assays"): of several datasets sharing one label only the first is kept. -/
def keyByLabel (l : List Dataset) : List Dataset := keyByLabelGo [] l

/-- Modelled from the spec: Big-Table Extractor — horizontal (§4.6): validate
that every decorated group spans `rep` columns before the next decorator or
the sheet edge (`ReplicateCountMismatchError` otherwise), then split each data
row into one Dataset per assay label. -/
def extract_horizontal (g : TableGrid) (idCol rep : Nat)
    (names : List String) : Except QpcrError (List Dataset) :=
  if spansOk rep g.width (groupPositions g) then
    Except.ok (keyByLabel (horizontalDatasets g idCol rep names))
  else Except.error QpcrError.ReplicateCountMismatchError

theorem spansOk_iff (rep width : Nat) (ps : List Nat) :
    spansOk rep width ps = true ↔
      ∀ i < ps.length, ps.getD i 0 + rep ≤ ps.getD (i + 1) width := by
  induction ps with
  | nil => simp [spansOk]
  | cons p rest ih =>
      cases rest with
      | nil =>
          simp only [spansOk, decide_eq_true_iff]
          constructor
          · intro h i hi
            have hi0 : i = 0 := by simpa using Nat.lt_one_iff.mp (by simpa using hi)
            subst hi0; simpa using h
          · intro h; simpa using h 0 (by simp)
      | cons q rest' =>
          rw [show spansOk rep width (p :: q :: rest')
                = (decide (p + rep ≤ q) && spansOk rep width (q :: rest')) from rfl]
          rw [Bool.and_eq_true, decide_eq_true_iff, ih]
          constructor
          · rintro ⟨h1, h2⟩ i hi
            cases i with
            | zero => simpa using h1
            | succ j =>
                have hj : j < (q :: rest').length := by
                  simpa [Nat.succ_lt_succ_iff] using hi
                simpa using h2 j hj
          · intro h
            refine ⟨by simpa using h 0 (by simp), ?_⟩
            intro j hj
            have := h (j + 1) (by simpa [Nat.succ_lt_succ_iff] using hj)
            simpa using this

/-- Claim C5: `extract_horizontal` succeeds whenever every group decorator is
followed by at least `replicate_count` columns before the next decorator or
the sheet edge (boundary included), and fails with
`ReplicateCountMismatchError` whenever fewer than `replicate_count` columns
remain between one decorator and the next decorator or the sheet edge. -/
theorem extract_horizontal_replicate_check (g : TableGrid) (idCol rep : Nat)
    (names : List String) :
    ((∀ i < (groupPositions g).length,
        (groupPositions g).getD i 0 + rep
          ≤ (groupPositions g).getD (i + 1) g.width) →
      ∃ ds, extract_horizontal g idCol rep names = Except.ok ds) ∧
    ((∃ i, i < (groupPositions g).length ∧
        (groupPositions g).getD (i + 1) g.width
          < (groupPositions g).getD i 0 + rep) →
      extract_horizontal g idCol rep names
        = Except.error QpcrError.ReplicateCountMismatchError) := by
  have hiff := spansOk_iff rep g.width (groupPositions g)
  constructor
  · intro h
    have hsp : spansOk rep g.width (groupPositions g) = true := hiff.mpr h
    exact ⟨keyByLabel (horizontalDatasets g idCol rep names),
      by simp [extract_horizontal, hsp]⟩
  · rintro ⟨i, hi, hbad⟩
    have hsp : spansOk rep g.width (groupPositions g) = false := by
      rcases Bool.eq_false_or_eq_true (spansOk rep g.width (groupPositions g))
        with h | h
      · exact absurd (hiff.mp h i hi) (by omega)
      · exact h
    simp [extract_horizontal, hsp]

/-- Concrete horizontal big-table grid shared by the horizontal-mode
witnesses: one group decorator at column 1, replicate count 2, sheet width 3,
so the group ends exactly at the sheet edge (the boundary case). -/
def gH : TableGrid :=
  ⟨[[Cell.empty, Cell.text "@qpcr:group", Cell.empty],
    [Cell.text "Target", Cell.text "r1", Cell.text "r2"],
    [Cell.text "miR-1", Cell.num 25, Cell.num 26],
    [Cell.text "miR-2", Cell.num 30, Cell.num 31]]⟩

theorem extract_horizontal_replicate_check_witness :
    ∃ ds, extract_horizontal gH 0 2 ["normal"] = Except.ok ds :=
  (extract_horizontal_replicate_check gH 0 2 ["normal"]).1 (by decide)

theorem keyByLabelGo_of_nodup (l : List Dataset) :
    ∀ seen, (l.map Dataset.id).Nodup → (∀ d ∈ l, d.id ∉ seen) →
      keyByLabelGo seen l = l := by
  induction l with
  | nil => intro seen _ _; rfl
  | cons d rest ih =>
      intro seen hnd hseen
      have hnd' : (∀ x ∈ rest, ¬x.id = d.id) ∧ (rest.map Dataset.id).Nodup := by
        simpa using hnd
      have hd : d.id ∉ seen := hseen d (List.mem_cons_self d rest)
      rw [keyByLabelGo, if_neg hd]
      congr 1
      refine ih (d.id :: seen) hnd'.2 ?_
      intro x hx hmem
      rcases List.mem_cons.mp hmem with h | h
      · exact hnd'.1 x hx h
      · exact hseen x (List.mem_cons_of_mem d hx) h

theorem keyByLabelGo_length_le (l : List Dataset) :
    ∀ seen, (keyByLabelGo seen l).length ≤ l.length := by
  induction l with
  | nil => intro seen; simp [keyByLabelGo]
  | cons d rest ih =>
      intro seen
      rw [keyByLabelGo]
      by_cases hd : d.id ∈ seen
      · rw [if_pos hd]
        exact Nat.le_succ_of_le (ih seen)
      · rw [if_neg hd]
        simpa using Nat.succ_le_succ (ih (d.id :: seen))

theorem keyByLabelGo_length_mono (l : List Dataset) :
    ∀ seen seen', seen ⊆ seen' →
      (keyByLabelGo seen' l).length ≤ (keyByLabelGo seen l).length := by
  induction l with
  | nil => intro seen seen' _; exact Nat.le_refl _
  | cons d rest ih =>
      intro seen seen' hsub
      simp only [keyByLabelGo]
      by_cases hd : d.id ∈ seen
      · rw [if_pos hd, if_pos (hsub hd)]
        exact ih seen seen' hsub
      · by_cases hd' : d.id ∈ seen'
        · rw [if_neg hd, if_pos hd']
          have hsub' : d.id :: seen ⊆ seen' := by
            intro x hx
            rcases List.mem_cons.mp hx with h | h
            · exact h ▸ hd'
            · exact hsub h
          exact Nat.le_succ_of_le (ih (d.id :: seen) seen' hsub')
        · rw [if_neg hd, if_neg hd']
          simpa using Nat.succ_le_succ
            (ih (d.id :: seen) (d.id :: seen') (List.cons_subset_cons _ hsub))

theorem keyByLabelGo_length_lt_of_seen (l : List Dataset) :
    ∀ seen i, i ∈ seen → i ∈ l.map Dataset.id →
      (keyByLabelGo seen l).length < l.length := by
  induction l with
  | nil => intro seen i _ hil; simp at hil
  | cons d rest ih =>
      intro seen i hi hil
      by_cases hd : d.id ∈ seen
      · rw [keyByLabelGo, if_pos hd]
        exact Nat.lt_succ_of_le (keyByLabelGo_length_le rest seen)
      · rw [keyByLabelGo, if_neg hd]
        rw [List.map_cons] at hil
        have hir : i ∈ rest.map Dataset.id := by
          rcases List.mem_cons.mp hil with h | h
          · exact absurd (h ▸ hi) hd
          · exact h
        simpa using Nat.succ_lt_succ
          (ih (d.id :: seen) i (List.mem_cons_of_mem _ hi) hir)

theorem keyByLabel_length_lt_of_dup (l : List Dataset)
    (h : ¬(l.map Dataset.id).Nodup) :
    (keyByLabel l).length < l.length := by
  induction l with
  | nil => exact absurd List.nodup_nil h
  | cons d rest ih =>
      rw [keyByLabel, keyByLabelGo, if_neg (List.not_mem_nil d.id)]
      by_cases hdup : d.id ∈ rest.map Dataset.id
      · simpa using Nat.succ_lt_succ
          (keyByLabelGo_length_lt_of_seen rest [d.id] d.id
            (List.mem_cons_self _ _) hdup)
      · have hrest : ¬(rest.map Dataset.id).Nodup := by
          intro hnd
          refine h ?_
          rw [List.map_cons]
          exact List.nodup_cons.mpr ⟨hdup, hnd⟩
        have h1 : (keyByLabelGo [d.id] rest).length
            ≤ (keyByLabelGo [] rest).length :=
          keyByLabelGo_length_mono rest [] [d.id] (List.nil_subset _)
        have h2 := ih hrest
        rw [keyByLabel] at h2
        simpa using Nat.succ_lt_succ (Nat.lt_of_le_of_lt h1 h2)

/-- Claim C8: the horizontal big-table extractor supports only pairwise
distinct assay labels: when the labels of the parsed rows are unique, the
result contains exactly one Dataset per label; when two rows share a label,
the extractor does not produce one Dataset per duplicate-labelled row (the
output is strictly shorter than the row list). -/
theorem horizontal_unique_labels (g : TableGrid) (idCol rep : Nat)
    (names : List String)
    (hsp : spansOk rep g.width (groupPositions g) = true) :
    (((horizontalDatasets g idCol rep names).map Dataset.id).Nodup →
      extract_horizontal g idCol rep names
        = Except.ok (horizontalDatasets g idCol rep names) ∧
      ∀ lbl ∈ (horizontalDatasets g idCol rep names).map Dataset.id,
        ((horizontalDatasets g idCol rep names).map Dataset.id).count lbl
          = 1) ∧
    (¬((horizontalDatasets g idCol rep names).map Dataset.id).Nodup →
      ∃ out, extract_horizontal g idCol rep names = Except.ok out ∧
        out.length < (horizontalDatasets g idCol rep names).length) := by
  constructor
  · intro hnd
    constructor
    · rw [extract_horizontal, if_pos hsp, keyByLabel,
        keyByLabelGo_of_nodup _ [] hnd (by simp)]
    · intro lbl hlbl
      exact List.count_eq_one_of_mem hnd hlbl
  · intro hdup
    exact ⟨keyByLabel (horizontalDatasets g idCol rep names),
      by rw [extract_horizontal, if_pos hsp],
      keyByLabel_length_lt_of_dup _ hdup⟩

theorem horizontal_unique_labels_witness :
    extract_horizontal gH 0 2 ["normal"]
      = Except.ok (horizontalDatasets gH 0 2 ["normal"]) :=
  ((horizontal_unique_labels gH 0 2 ["normal"] (by decide)).1 (by decide)).1

theorem classify_partitions_witness :
    ((classify dsC3 decsC3).1 ++ (classify dsC3 decsC3).2).Perm dsC3 :=
  (classify_partitions dsC3 decsC3).1

theorem read_idempotent_stateless_witness :
    ((DataReader.callRead ⟨none⟩ gC6 oC6).2.callRead gC6 oC6).1
      = (DataReader.callRead ⟨none⟩ gC6 oC6).1 :=
  (read_idempotent_stateless ⟨none⟩ ⟨none⟩ gC6 oC6).1

theorem read_multi_assay_eq_read_witness :
    read_multi_assay gC6 oC6 = read gC6 { oC6 with multiAssay := true } :=
  read_multi_assay_eq_read gC6 oC6

theorem decorator_bool_eq_explicit_all_witness :
    read gC1 { oC1 with multiAssay := true,
                        decorator := DecoratorOpt.enabled }
      = read gC1 { oC1 with multiAssay := true,
                            decorator := DecoratorOpt.key "qpcr:all" } ∧
    read gC1 { oC1 with multiAssay := false,
                        decorator := DecoratorOpt.enabled }
      = Except.error QpcrError.InvalidDecoratorOptionError :=
  ⟨(decorator_bool_eq_explicit_all gC1 oC1).1,
   (decorator_bool_eq_explicit_all gC1 oC1).2.2.2.2.1⟩

end Qpcr
